import Mathlib

/-!
Verification development for the ebay-sniper repository.

The definitions below are a shallow embedding of the program's data model and
operations:

* `AuctionStatus`, `AuctionOutcome`, `BidResult`, `BidAttempt`, `SysAuction`
  embed `src/database/models.py`;
* `execute_bid` / `retryLoop` embed `Worker._execute_bid`
  (`src/server/worker.py`);
* `process_auction` embeds `Worker._process_auction`;
* `check_outcomes_pass1` / `check_outcomes_pass2` embed
  `Worker._check_auction_outcomes` together with
  `eBayClient.get_auction_outcome` (`src/server/ebay_client.py`);
* `should_refresh_price`, `refresh_auction_price`, `add_sniper`,
  `bulk_add_item`, `remove_sniper`, `authOp` embed `src/server/api.py`.

Conventions: times are UTC instants in integer milliseconds; monetary values
are integer cents.  Each call of `datetime.utcnow()` is a fresh read of an
oracle `clock : Nat -> Int`; the outcomes of the marketplace calls are given
by environment parameters (`script`, `fetch`, `env`, ...).
-/

/-- Statuses of `AuctionStatus` in `src/database/models.py`. -/
inductive AuctionStatus
  | SCHEDULED
  | EXECUTING
  | BID_PLACED
  | FAILED
  | CANCELLED
  | SKIPPED
deriving DecidableEq

/-- `AuctionOutcome` in `src/database/models.py`. -/
inductive AuctionOutcome
  | PENDING
  | WON
  | LOST
deriving DecidableEq

/-- `BidResult` in `src/database/models.py`. -/
inductive BidResult
  | SUCCESS
  | FAILED
deriving DecidableEq

/-- A row of `bid_attempts` (`BidAttempt` model): `auction_id` is implicit
(the list of attempts is stored on its auction). -/
structure BidAttempt where
  attempt_time_utc : Int
  result : BidResult
  error_message : Option String
deriving DecidableEq

/-- A row of `auctions` (`Auction` model), with its (by the schema at most
one, here: list, so that the at-most-one property is provable rather than
assumed) bid attempts attached. -/
structure SysAuction where
  listing_number : String
  item_title : String
  current_price : Int
  max_bid : Int
  currency : String
  auction_end_time_utc : Int
  last_price_refresh_utc : Option Int
  status : AuctionStatus
  skip_reason : Option String
  outcome : AuctionOutcome
  final_price : Option Int
  attempts : List BidAttempt
deriving DecidableEq

/-- Does the character list `pat` occur at the head of `s`? (helper for the
embedding of Python's `in` substring test). -/
def beginsWith : List Char → List Char → Bool
  | _, [] => true
  | [], _ :: _ => false
  | a :: as, b :: bs => a = b && beginsWith as bs

/-- Does `pat` occur as a contiguous sublist of `s`? -/
def hasSub (s pat : List Char) : Bool :=
  match s with
  | [] => beginsWith [] pat
  | _ :: rest => beginsWith s pat || hasSub rest pat

/-- Python's `pat in s` substring test on strings. -/
def containsSub (s pat : String) : Bool :=
  hasSub s.data pat.data

/-- Python's `s.lower()`. -/
def lowerStr (s : String) : String :=
  String.mk (s.data.map Char.toLower)

/-- Outcome of one `eBayClient.place_bid` call, as observed by
`_execute_bid`'s `except` clauses.  `reqExc` is a
`requests.exceptions.RequestException` carrying `str(e)` and (for
specification purposes only; the code reads only the message) the HTTP
status code of the response, if any.  `otherExc` is any other exception. -/
inductive PlaceBidResult
  | ok
  | timeout
  | reqExc (msg : String) (httpStatus : Option Nat)
  | otherExc (msg : String)
deriving DecidableEq

/-- `delays = [0.1, 0.25, 0.5]` in `_execute_bid` (milliseconds), accessed
as `delays[attempt] if attempt < len(delays) else delays[-1]`. -/
def delayFor (attempt : Nat) : Int :=
  ([100, 250, 500] : List Int).getD attempt 500

/-- The `is_retryable` computation of `_execute_bid`'s
`requests.exceptions.RequestException` handler (worker.py lines 143-159);
`attempt < 3` is the source's `attempt < max_attempts - 1`. -/
def retryableMsg (attempt : Nat) (msg : String) : Bool :=
  if containsSub msg "429" && decide (attempt < 3) then true
  else if containsSub msg "5" || containsSub (lowerStr msg) "server error" then
    decide (attempt < 3)
  else false

/-- Result of a run of `_execute_bid`: the auction row fields it writes
(`status`, the bid-attempt rows), plus the observable trace: whether the
claim CAS succeeded (`claimed`), how many `place_bid` calls were made
(`bidCalls`), which `time.sleep` delays were performed (`sleeps`, ms), and
the Python return value (`ret`). -/
structure ExecOut where
  status : AuctionStatus
  attempts : List BidAttempt
  claimed : Bool
  bidCalls : Nat
  sleeps : List Int
  ret : Bool
deriving DecidableEq

/-- The `for attempt in range(max_attempts)` loop of `_execute_bid`
(worker.py lines 106-197).  `fuel` is the number of loop iterations left
(`max_attempts - attempt`), `ci` indexes the next `datetime.utcnow()` read,
`calls` counts `place_bid` calls made so far (also indexing `script`). -/
def retryLoop (endTime : Int) (clock : Nat → Int) (script : Nat → PlaceBidResult) :
    Nat → Nat → Nat → Nat → List Int → List BidAttempt → ExecOut
  | 0, _, ci, calls, sleeps, atts =>
    -- range exhausted: "All retry attempts exhausted"
    ⟨AuctionStatus.FAILED,
      atts ++ [⟨clock ci, BidResult.FAILED, some "All retry attempts exhausted"⟩],
      true, calls, sleeps, false⟩
  | fuel + 1, attempt, ci, calls, sleeps, atts =>
    if clock ci ≥ endTime - 300 then
      -- ran out of the bid window
      ⟨AuctionStatus.FAILED,
        atts ++ [⟨clock (ci + 1), BidResult.FAILED,
          some "Ran out of time window for bid placement"⟩],
        true, calls, sleeps, false⟩
    else
      match script calls with
      | PlaceBidResult.ok =>
        ⟨AuctionStatus.BID_PLACED,
          atts ++ [⟨clock (ci + 1), BidResult.SUCCESS, none⟩],
          true, calls + 1, sleeps, true⟩
      | PlaceBidResult.timeout =>
        if attempt < 3 then
          retryLoop endTime clock script fuel (attempt + 1) (ci + 1) (calls + 1)
            (sleeps ++ [delayFor attempt]) atts
        else
          retryLoop endTime clock script fuel (attempt + 1) (ci + 1) (calls + 1) sleeps atts
      | PlaceBidResult.reqExc msg _ =>
        if retryableMsg attempt msg then
          retryLoop endTime clock script fuel (attempt + 1) (ci + 1) (calls + 1)
            (sleeps ++ [delayFor attempt]) atts
        else
          ⟨AuctionStatus.FAILED,
            atts ++ [⟨clock (ci + 1), BidResult.FAILED, some msg⟩],
            true, calls + 1, sleeps, false⟩
      | PlaceBidResult.otherExc msg =>
        ⟨AuctionStatus.FAILED,
          atts ++ [⟨clock (ci + 1), BidResult.FAILED, some msg⟩],
          true, calls + 1, sleeps, false⟩

/-- `Worker._execute_bid` (worker.py lines 60-197), acting on the auction's
`status` and attached bid attempts.  The claim CAS
(`UPDATE ... SET status = Executing WHERE id = X AND status = Scheduled`)
succeeds exactly when the current status is `Scheduled`; on zero rows
updated the function returns with no further effect.  The OAuth-token
refresh step touches only client credentials and is elided. -/
def execute_bid (endTime : Int) (clock : Nat → Int) (script : Nat → PlaceBidResult)
    (st : AuctionStatus) (atts : List BidAttempt) : ExecOut :=
  if st = AuctionStatus.SCHEDULED then
    -- CAS succeeded: status is now Executing; check whether the auction ended
    if clock 0 ≥ endTime then
      ⟨AuctionStatus.FAILED,
        atts ++ [⟨clock 1, BidResult.FAILED,
          some "Auction ended before bid could be placed"⟩],
        true, 0, [], false⟩
    else
      retryLoop endTime clock script 4 0 1 0 [] atts
  else
    ⟨st, atts, false, 0, [], false⟩

/-- Merge the writes of `_execute_bid` back into the auction row. -/
def applyExec (a : SysAuction) (r : ExecOut) : SysAuction :=
  { a with status := r.status, attempts := r.attempts }

/-- `Worker._pre_bid_price_check` (worker.py lines 32-58).  `fetch` is the
result of `get_auction_details`: `some p` supplies the fetched
`current_price`; `none` models any raised exception, on which the check
logs and proceeds with the row unchanged. -/
def pre_bid_price_check (now : Int) (fetch : Option Int) (a : SysAuction) : SysAuction :=
  match fetch with
  | none => a
  | some p =>
    let a1 := { a with current_price := p, last_price_refresh_utc := some now }
    if p > a.max_bid then
      { a1 with status := AuctionStatus.SKIPPED,
                skip_reason := some "Current price exceeded max bid at T−60s" }
    else a1

/-- `Worker._process_auction` (worker.py lines 267-323).  `now` is the
`datetime.utcnow()` read at the top; `clock`/`script` drive the inner
`_execute_bid`; `fetch` drives the pre-bid price check.
`BID_OFFSET_SECONDS = 3`, `PRE_BID_CHECK_SECONDS = 60`. -/
def process_auction (now : Int) (clock : Nat → Int) (script : Nat → PlaceBidResult)
    (fetch : Option Int) (a : SysAuction) : SysAuction :=
  let bidTime := a.auction_end_time_utc - 3000
  let preTime := a.auction_end_time_utc - 60000
  if a.status = AuctionStatus.BID_PLACED ∨ a.status = AuctionStatus.FAILED ∨
      a.status = AuctionStatus.SKIPPED ∨ a.status = AuctionStatus.CANCELLED then
    a
  else if a.status = AuctionStatus.EXECUTING then
    if now ≥ a.auction_end_time_utc then
      { a with status := AuctionStatus.FAILED,
               attempts :=
                 if a.attempts.isEmpty then
                   [⟨now, BidResult.FAILED,
                     some "Worker crashed during execution, auction ended"⟩]
                 else a.attempts }
    else a
  else if a.status = AuctionStatus.SCHEDULED ∧ now ≥ a.auction_end_time_utc then
    { a with status := AuctionStatus.FAILED,
             attempts :=
               if a.attempts.isEmpty then
                 [⟨now, BidResult.FAILED,
                   some "Auction ended before worker could process it"⟩]
               else a.attempts }
  else if a.status = AuctionStatus.SCHEDULED then
    let a1 :=
      if 0 ≤ preTime - now ∧ preTime - now < 1000 then pre_bid_price_check now fetch a
      else a
    if a1.status = AuctionStatus.SCHEDULED then
      if 0 ≤ bidTime - now ∧ bidTime - now < 1000 then
        applyExec a1 (execute_bid a1.auction_end_time_utc clock script a1.status a1.attempts)
      else a1
    else a1
  else a

/-- The durable intermediate state of `_execute_bid`: the claim CAS
(`Scheduled → Executing`) is committed on its own, so a worker crash right
after it leaves the row `Executing` with everything else unchanged. -/
def claimCAS (a : SysAuction) : SysAuction :=
  if a.status = AuctionStatus.SCHEDULED then { a with status := AuctionStatus.EXECUTING }
  else a

/-- `remove_sniper` (api.py lines 349-363): cancel iff still `Scheduled`;
the second component reports whether the request succeeded (otherwise the
endpoint raises 400 and the row is untouched). -/
def remove_sniper (a : SysAuction) : SysAuction × Bool :=
  if a.status = AuctionStatus.SCHEDULED then
    ({ a with status := AuctionStatus.CANCELLED }, true)
  else (a, false)

/-- Reply of the marketplace Offer API as consumed by
`eBayClient.get_auction_outcome`: a 404, a parsed body
(`auctionStatus`, `highBidder`, `currentPrice.value`), or any other
raised exception. -/
inductive OutcomeReply
  | http404
  | body (auctionStatus : String) (highBidder : Bool) (priceValue : Option Int)
  | exc
deriving DecidableEq

/-- `eBayClient.get_auction_outcome` (ebay_client.py lines 784-830): `none`
models a raised exception; otherwise the pair (outcome, final_price).
A zero `currentPrice.value` is falsy in Python, hence dropped. -/
def get_auction_outcome : OutcomeReply → Option (AuctionOutcome × Option Int)
  | OutcomeReply.http404 => some (AuctionOutcome.PENDING, none)
  | OutcomeReply.exc => none
  | OutcomeReply.body st hb pv =>
    if st = "ENDED" then
      some ((if hb then AuctionOutcome.WON else AuctionOutcome.LOST),
        match pv with
        | some v => if v ≠ 0 then some v else none
        | none => none)
    else some (AuctionOutcome.PENDING, none)

/-- First pass of `Worker._check_auction_outcomes` (worker.py lines
205-232), per auction row: the tick's query selects
`status = BidPlaced ∧ end_time < now ∧ outcome = Pending`; inside the loop
rows ended less than 30 s ago are skipped, and a raised exception rolls the
row back.  `if outcome_data["final_price"]:` keeps the old `final_price`
when the reply's price is absent. -/
def check_outcomes_pass1 (now : Int) (env : OutcomeReply) (a : SysAuction) : SysAuction :=
  if a.status = AuctionStatus.BID_PLACED ∧ a.auction_end_time_utc < now ∧
      a.outcome = AuctionOutcome.PENDING then
    if now - a.auction_end_time_utc < 30000 then a
    else
      match get_auction_outcome env with
      | none => a
      | some (oc, fp) =>
        { a with outcome := oc,
                 final_price := match fp with | some v => some v | none => a.final_price }
  else a

/-- Second pass of `Worker._check_auction_outcomes` (worker.py lines
236-260), per auction row: for rows with `end_time < now`, no
`final_price` and `outcome = Pending`, ended at least 30 s ago, pull a
final price from the Trading API (`tp`; `none` models no price or a raised
exception; a zero price is falsy in Python and not stored). -/
def check_outcomes_pass2 (now : Int) (tp : Option Int) (a : SysAuction) : SysAuction :=
  if a.auction_end_time_utc < now ∧ a.final_price = none ∧
      a.outcome = AuctionOutcome.PENDING then
    if now - a.auction_end_time_utc < 30000 then a
    else
      match tp with
      | some v => if v ≠ 0 then { a with final_price := some v } else a
      | none => a
  else a

/-- Both passes of `Worker._check_auction_outcomes`, as they act on one
auction row in one tick (the second query runs after the first pass's
commits). -/
def check_auction_outcomes (now : Int) (env : OutcomeReply) (tp : Option Int)
    (a : SysAuction) : SysAuction :=
  check_outcomes_pass2 now tp (check_outcomes_pass1 now env a)

/-- `_should_refresh_price` (api.py lines 40-58); cache TTL 60 s. -/
def should_refresh_price (now : Int) (a : SysAuction) : Bool :=
  let terminal : List AuctionStatus :=
    [AuctionStatus.CANCELLED, AuctionStatus.FAILED, AuctionStatus.SKIPPED] ++
      (if a.status = AuctionStatus.BID_PLACED ∧ now ≥ a.auction_end_time_utc then
        [AuctionStatus.BID_PLACED]
      else [])
  if a.status ∈ terminal then false
  else
    match a.last_price_refresh_utc with
    | none => true
    | some t => decide (now - t > 60000)

/-- The listing details returned by `eBayClient.get_auction_details`
(fields used by the API layer). -/
structure Details where
  item_title : String
  current_price : Int
  currency : String
  auction_end_time_utc : Int
deriving DecidableEq

/-- `_refresh_auction_price` (api.py lines 61-107), per auction row:
`none` models a 429 (stale-while-rate-limited) or any other error — in
every such case the row is unchanged and `last_price_refresh_utc` is not
advanced. -/
def refresh_auction_price (now : Int) (d : Option Details) (a : SysAuction) : SysAuction :=
  match d with
  | none => a
  | some d =>
    { a with item_title := d.item_title, current_price := d.current_price,
             currency := d.currency, auction_end_time_utc := d.auction_end_time_utc,
             last_price_refresh_utc := some now }

/-- The Auction row constructed by `add_sniper` / `bulk_add_snipers` on
success (api.py lines 161-173 and 242-254). -/
def newAuction (now : Int) (listing : String) (maxBid : Int) (d : Details) : SysAuction :=
  { listing_number := listing, item_title := d.item_title,
    current_price := d.current_price, max_bid := maxBid, currency := d.currency,
    auction_end_time_utc := d.auction_end_time_utc, last_price_refresh_utc := some now,
    status := AuctionStatus.SCHEDULED, skip_reason := none,
    outcome := AuctionOutcome.PENDING, final_price := none, attempts := [] }

/-- Result of `get_auction_details` as seen by the add endpoints: either
the parsed details or a raised exception with its surfaced message. -/
inductive FetchResult
  | ok (d : Details)
  | fetchError (msg : String)
deriving DecidableEq

/-- `add_sniper` (api.py lines 123-179) acting on the auctions table:
rejects when any row with the same `listing_number` exists, surfaces fetch
errors, and otherwise appends a new `Scheduled` row.  No validation of the
end time or of `max_bid` against `current_price` is performed on this
path. -/
def add_sniper (now : Int) (db : List SysAuction) (listing : String) (maxBid : Int)
    (fetch : FetchResult) : Except String (List SysAuction) :=
  if db.any (fun a => a.listing_number = listing) then
    Except.error "Auction already exists"
  else
    match fetch with
    | FetchResult.fetchError m => Except.error m
    | FetchResult.ok d => Except.ok (db ++ [newAuction now listing maxBid d])

/-- One item of `bulk_add_snipers` (api.py lines 187-274): like
`add_sniper` but additionally rejecting ended listings and bids not above
the current price; returns the new table and the per-item error message,
if any. -/
def bulk_add_item (now : Int) (db : List SysAuction) (listing : String) (maxBid : Int)
    (fetch : FetchResult) : List SysAuction × Option String :=
  if db.any (fun a => a.listing_number = listing) then
    (db, some "Auction already exists")
  else
    match fetch with
    | FetchResult.fetchError m => (db, some m)
    | FetchResult.ok d =>
      if d.auction_end_time_utc ≤ now then (db, some "Auction has ended")
      else if maxBid ≤ d.current_price then
        (db, some "Max bid must be greater than current price")
      else (db ++ [newAuction now listing maxBid d], none)

/-- The bearer token issued by `auth`. -/
structure AuthToken where
  sub : String
  exp : Int
deriving DecidableEq

/-- `auth` (api.py lines 110-120): unconditionally issues a token for the
supplied username, expiring 30 days from `utcnow()`; the password is never
inspected. -/
def authOp (now : Int) (username _password : String) : AuthToken :=
  { sub := username, exp := now + 30 * 86400000 }

/-- One durable transition of a single auction row: a scheduler tick on the
row, a bare committed claim CAS (worker crash right after the claim), a
user cancel, the outcome-reconciliation pass, or a read-path price
refresh. -/
inductive SysStep : SysAuction → SysAuction → Prop
  | tick (now : Int) (clock : Nat → Int) (script : Nat → PlaceBidResult)
      (fetch : Option Int) (a : SysAuction) :
      SysStep a (process_auction now clock script fetch a)
  | claim (a : SysAuction) : SysStep a (claimCAS a)
  | cancel (a : SysAuction) : SysStep a (remove_sniper a).1
  | outcomes (now : Int) (env : OutcomeReply) (tp : Option Int) (a : SysAuction) :
      SysStep a (check_auction_outcomes now env tp a)
  | refresh (now : Int) (d : Option Details) (a : SysAuction) :
      SysStep a (refresh_auction_price now d a)

/-- Auction rows reachable by the system: created by the add endpoints and
then mutated only through `SysStep`s. -/
inductive ReachableAuction : SysAuction → Prop
  | init (now : Int) (listing : String) (maxBid : Int) (d : Details) :
      ReachableAuction (newAuction now listing maxBid d)
  | step {a b : SysAuction} : ReachableAuction a → SysStep a b → ReachableAuction b

/-- `delayFor attempt` prepended to the tail of the remaining delays, for
`attempt < 3`. -/
lemma delayFor_cons (attempt j : Nat) (h : attempt < 3) :
    delayFor attempt :: ((([100, 250, 500] : List Int).drop (attempt + 1)).take j) =
      (([100, 250, 500] : List Int).drop attempt).take (j + 1) := by
  interval_cases attempt <;> simp [delayFor]

/-- For `attempt ≥ 3` no delays remain. -/
lemma drop_delays_nil (attempt : Nat) (h : 3 ≤ attempt) :
    (([100, 250, 500] : List Int).drop attempt) = [] := by
  apply List.drop_eq_nil_of_le
  simpa using h

/-- A retry decision implies attempts remained (`attempt < max_attempts - 1`). -/
lemma retryableMsg_lt (attempt : Nat) (msg : String) (h : retryableMsg attempt msg = true) :
    attempt < 3 := by
  by_contra hge
  have hd : decide (attempt < 3) = false := by simpa using hge
  unfold retryableMsg at h
  rw [hd] at h
  simp at h

/-- Shape of every run of the retry loop: the claim flag stays set, exactly
one bid-attempt row is appended, the final status is `BidPlaced` with a
success row or `Failed` with a failure row, at most `fuel` further
`place_bid` calls happen, and the performed sleeps extend the accumulator
by a prefix of the remaining delay table. -/
lemma retryLoop_shape (e : Int) (c : Nat → Int) (s : Nat → PlaceBidResult) :
    ∀ fuel attempt ci calls sleeps atts, ∃ rec j,
      (retryLoop e c s fuel attempt ci calls sleeps atts).claimed = true ∧
      (retryLoop e c s fuel attempt ci calls sleeps atts).attempts = atts ++ [rec] ∧
      (((retryLoop e c s fuel attempt ci calls sleeps atts).status = AuctionStatus.BID_PLACED ∧
          rec.result = BidResult.SUCCESS ∧ rec.error_message = none) ∨
        ((retryLoop e c s fuel attempt ci calls sleeps atts).status = AuctionStatus.FAILED ∧
          rec.result = BidResult.FAILED)) ∧
      (retryLoop e c s fuel attempt ci calls sleeps atts).bidCalls ≤ calls + fuel ∧
      (retryLoop e c s fuel attempt ci calls sleeps atts).sleeps =
        sleeps ++ ((([100, 250, 500] : List Int).drop attempt).take j) := by
  intro fuel
  induction fuel with
  | zero =>
    intro attempt ci calls sleeps atts
    refine ⟨⟨c ci, BidResult.FAILED, some "All retry attempts exhausted"⟩, 0, ?_⟩
    simp [retryLoop]
  | succ n ih =>
    intro attempt ci calls sleeps atts
    simp only [retryLoop]
    split
    · -- window exhausted
      refine ⟨⟨c (ci + 1), BidResult.FAILED,
        some "Ran out of time window for bid placement"⟩, 0, ?_⟩
      simp
    · split
      · -- ok
        refine ⟨⟨c (ci + 1), BidResult.SUCCESS, none⟩, 0, ?_⟩
        simp
        try omega
      · -- timeout
        split
        · -- attempt < 3: sleep then retry
          rename_i hlt
          obtain ⟨rec, j, h1, h2, h3, h4, h5⟩ :=
            ih (attempt + 1) (ci + 1) (calls + 1) (sleeps ++ [delayFor attempt]) atts
          refine ⟨rec, j + 1, h1, h2, h3, by omega, ?_⟩
          rw [h5, List.append_assoc, List.singleton_append, delayFor_cons attempt j hlt]
        · -- attempt ≥ 3: retry without sleeping
          rename_i hge
          obtain ⟨rec, j, h1, h2, h3, h4, h5⟩ :=
            ih (attempt + 1) (ci + 1) (calls + 1) sleeps atts
          refine ⟨rec, j, h1, h2, h3, by omega, ?_⟩
          rw [h5, drop_delays_nil (attempt + 1) (by omega), drop_delays_nil attempt (by omega)]
      · -- reqExc, retryability decided by the message heuristic
        rename_i msg hstat heq
        split
        · -- retryable: sleep then retry
          rename_i hretry
          have hlt : attempt < 3 := retryableMsg_lt attempt msg hretry
          obtain ⟨rec, j, h1, h2, h3, h4, h5⟩ :=
            ih (attempt + 1) (ci + 1) (calls + 1) (sleeps ++ [delayFor attempt]) atts
          refine ⟨rec, j + 1, h1, h2, h3, by omega, ?_⟩
          rw [h5, List.append_assoc, List.singleton_append, delayFor_cons attempt j hlt]
        · -- not retryable: terminal failure with the error message
          refine ⟨⟨c (ci + 1), BidResult.FAILED, some msg⟩, 0, ?_⟩
          simp
          try omega
      · -- otherExc: terminal failure with the error message
        rename_i msg heq
        refine ⟨⟨c (ci + 1), BidResult.FAILED, some msg⟩, 0, ?_⟩
        simp
        try omega

/-- When the claim CAS updates zero rows (`status ≠ Scheduled`),
`_execute_bid` has no effect at all: no bid call, no bid-attempt row, the
row unchanged. -/
lemma execute_bid_not_scheduled (e : Int) (c : Nat → Int) (s : Nat → PlaceBidResult)
    (st : AuctionStatus) (atts : List BidAttempt) (h : st ≠ AuctionStatus.SCHEDULED) :
    execute_bid e c s st atts = ⟨st, atts, false, 0, [], false⟩ := by
  unfold execute_bid
  rw [if_neg h]

/-- Shape of every claimed run of `_execute_bid`: the claim succeeds,
exactly one bid-attempt row is appended, the final status is `BidPlaced`
(success row) or `Failed` (failure row), `place_bid` is called at most 4
times, and the sleeps are a prefix of `[100, 250, 500]`. -/
lemma execute_bid_shape (e : Int) (c : Nat → Int) (s : Nat → PlaceBidResult)
    (st : AuctionStatus) (atts : List BidAttempt) (h : st = AuctionStatus.SCHEDULED) :
    ∃ rec j,
      (execute_bid e c s st atts).claimed = true ∧
      (execute_bid e c s st atts).attempts = atts ++ [rec] ∧
      (((execute_bid e c s st atts).status = AuctionStatus.BID_PLACED ∧
          rec.result = BidResult.SUCCESS ∧ rec.error_message = none) ∨
        ((execute_bid e c s st atts).status = AuctionStatus.FAILED ∧
          rec.result = BidResult.FAILED)) ∧
      (execute_bid e c s st atts).bidCalls ≤ 4 ∧
      (execute_bid e c s st atts).sleeps = ([100, 250, 500] : List Int).take j := by
  unfold execute_bid
  rw [if_pos h]
  split
  · exact ⟨⟨c 1, BidResult.FAILED, some "Auction ended before bid could be placed"⟩, 0,
      rfl, rfl, Or.inr ⟨rfl, rfl⟩, by norm_num, rfl⟩
  · obtain ⟨rec, j, h1, h2, h3, h4, h5⟩ := retryLoop_shape e c s 4 0 1 0 [] atts
    exact ⟨rec, j, h1, h2, h3, by omega, by simpa using h5⟩

/-- A claimed run of `_execute_bid` never leaves the row `Scheduled`. -/
lemma execute_bid_result_not_scheduled (e : Int) (c : Nat → Int) (s : Nat → PlaceBidResult)
    (st : AuctionStatus) (atts : List BidAttempt) (h : st = AuctionStatus.SCHEDULED) :
    (execute_bid e c s st atts).status ≠ AuctionStatus.SCHEDULED := by
  obtain ⟨rec, j, _, _, h3, _, _⟩ := execute_bid_shape e c s st atts h
  rcases h3 with ⟨hst, _⟩ | ⟨hst, _⟩ <;> rw [hst] <;> intro hc <;> exact absurd hc (by simp)

/-- The outcome of the `place_bid` call at a given attempt index counts as
retryable for the loop: a timeout always, a `RequestException` exactly when
the message heuristic says so, nothing else. -/
def retryableAt (attempt : Nat) : PlaceBidResult → Prop
  | PlaceBidResult.ok => False
  | PlaceBidResult.timeout => True
  | PlaceBidResult.reqExc msg _ => retryableMsg attempt msg = true
  | PlaceBidResult.otherExc _ => False

/-- One retrying loop iteration with a sleep (`attempt < 3`). -/
lemma retryLoop_step_retry (e : Int) (c : Nat → Int) (s : Nat → PlaceBidResult)
    (fuel attempt ci calls : Nat) (sleeps : List Int) (atts : List BidAttempt)
    (hc : ¬ c ci ≥ e - 300) (hr : retryableAt attempt (s calls)) (hlt : attempt < 3) :
    retryLoop e c s (fuel + 1) attempt ci calls sleeps atts =
      retryLoop e c s fuel (attempt + 1) (ci + 1) (calls + 1)
        (sleeps ++ [delayFor attempt]) atts := by
  simp only [retryLoop]
  rw [if_neg hc]
  cases hsc : s calls with
  | ok => rw [hsc] at hr; simp [retryableAt] at hr
  | timeout => simp only [hsc]; rw [if_pos hlt]
  | reqExc msg hs =>
    rw [hsc] at hr
    simp only [retryableAt] at hr
    simp only [hsc]
    rw [if_pos hr]
  | otherExc msg => rw [hsc] at hr; simp [retryableAt] at hr

/-- One retrying loop iteration without a sleep (timeout on the last
attempt). -/
lemma retryLoop_step_timeout_nosleep (e : Int) (c : Nat → Int) (s : Nat → PlaceBidResult)
    (fuel attempt ci calls : Nat) (sleeps : List Int) (atts : List BidAttempt)
    (hc : ¬ c ci ≥ e - 300) (hsc : s calls = PlaceBidResult.timeout) (hge : ¬ attempt < 3) :
    retryLoop e c s (fuel + 1) attempt ci calls sleeps atts =
      retryLoop e c s fuel (attempt + 1) (ci + 1) (calls + 1) sleeps atts := by
  simp only [retryLoop]
  rw [if_neg hc]
  simp only [hsc]
  rw [if_neg hge]

/-- The window check before an attempt stops the loop with a failure row. -/
lemma retryLoop_window (e : Int) (c : Nat → Int) (s : Nat → PlaceBidResult)
    (fuel attempt ci calls : Nat) (sleeps : List Int) (atts : List BidAttempt)
    (hfuel : fuel ≠ 0) (h : c ci ≥ e - 300) :
    retryLoop e c s fuel attempt ci calls sleeps atts =
      ⟨AuctionStatus.FAILED,
        atts ++ [⟨c (ci + 1), BidResult.FAILED,
          some "Ran out of time window for bid placement"⟩],
        true, calls, sleeps, false⟩ := by
  cases fuel with
  | zero => exact absurd rfl hfuel
  | succ n =>
    simp only [retryLoop]
    rw [if_pos h]

/-- A `RequestException` the message heuristic deems non-retryable ends the
loop at once, recording the error's own message. -/
lemma retryLoop_nonretry_req (e : Int) (c : Nat → Int) (s : Nat → PlaceBidResult)
    (fuel attempt ci calls : Nat) (sleeps : List Int) (atts : List BidAttempt)
    (msg : String) (hst : Option Nat)
    (hfuel : fuel ≠ 0) (hc : ¬ c ci ≥ e - 300)
    (hsc : s calls = PlaceBidResult.reqExc msg hst)
    (hnr : retryableMsg attempt msg = false) :
    retryLoop e c s fuel attempt ci calls sleeps atts =
      ⟨AuctionStatus.FAILED, atts ++ [⟨c (ci + 1), BidResult.FAILED, some msg⟩],
        true, calls + 1, sleeps, false⟩ := by
  cases fuel with
  | zero => exact absurd rfl hfuel
  | succ n =>
    simp only [retryLoop]
    rw [if_neg hc]
    simp only [hsc]
    rw [if_neg (by simp [hnr])]

/-- Any exception other than a timeout or a `RequestException` ends the
loop at once, recording the error's own message. -/
lemma retryLoop_otherexc (e : Int) (c : Nat → Int) (s : Nat → PlaceBidResult)
    (fuel attempt ci calls : Nat) (sleeps : List Int) (atts : List BidAttempt)
    (msg : String)
    (hfuel : fuel ≠ 0) (hc : ¬ c ci ≥ e - 300)
    (hsc : s calls = PlaceBidResult.otherExc msg) :
    retryLoop e c s fuel attempt ci calls sleeps atts =
      ⟨AuctionStatus.FAILED, atts ++ [⟨c (ci + 1), BidResult.FAILED, some msg⟩],
        true, calls + 1, sleeps, false⟩ := by
  cases fuel with
  | zero => exact absurd rfl hfuel
  | succ n =>
    simp only [retryLoop]
    rw [if_neg hc]
    simp only [hsc]

/-- If the clock never reaches the window cutoff and all four `place_bid`
outcomes are retryable, the loop exhausts its four attempts, sleeping
100/250/500 ms in between, and ends with the exhaustion failure row. -/
lemma retryLoop_exhausted (e : Int) (c : Nat → Int) (s : Nat → PlaceBidResult)
    (ci : Nat) (atts : List BidAttempt)
    (hc : ∀ i, c i < e - 300) (hs : ∀ j, j < 4 → retryableAt j (s j)) :
    retryLoop e c s 4 0 ci 0 [] atts =
      ⟨AuctionStatus.FAILED,
        atts ++ [⟨c (ci + 4), BidResult.FAILED, some "All retry attempts exhausted"⟩],
        true, 4, [100, 250, 500], false⟩ := by
  have hnc : ∀ i, ¬ c i ≥ e - 300 := fun i => not_le.mpr (hc i)
  rw [show (4 : Nat) = 3 + 1 from rfl,
    retryLoop_step_retry e c s 3 0 ci 0 [] atts (hnc ci) (hs 0 (by norm_num)) (by norm_num)]
  rw [show (3 : Nat) = 2 + 1 from rfl,
    retryLoop_step_retry e c s 2 1 (ci + 1) 1 ([] ++ [delayFor 0]) atts (hnc (ci + 1))
      (hs 1 (by norm_num)) (by norm_num)]
  rw [show (2 : Nat) = 1 + 1 from rfl,
    retryLoop_step_retry e c s 1 2 (ci + 1 + 1) 2 ([] ++ [delayFor 0] ++ [delayFor 1]) atts
      (hnc (ci + 1 + 1)) (hs 2 (by norm_num)) (by norm_num)]
  have h3 := hs 3 (by norm_num)
  cases h3c : s 3 with
  | ok => rw [h3c] at h3; simp [retryableAt] at h3
  | otherExc m => rw [h3c] at h3; simp [retryableAt] at h3
  | reqExc m hst =>
    rw [h3c] at h3
    simp only [retryableAt] at h3
    have := retryableMsg_lt 3 m h3
    omega
  | timeout =>
    rw [show (1 : Nat) = 0 + 1 from rfl,
      retryLoop_step_timeout_nosleep e c s 0 3 (ci + 1 + 1 + 1) 3
        ([] ++ [delayFor 0] ++ [delayFor 1] ++ [delayFor 2]) atts
        (hnc (ci + 1 + 1 + 1)) h3c (by norm_num)]
    have hci : ci + 1 + 1 + 1 + 1 = ci + 4 := by omega
    simp [retryLoop, delayFor, hci]

/-- C1: `_execute_bid` starts with the claim CAS `Scheduled → Executing`;
when it updates zero rows the call returns with no bid placed, no
BidAttempt and the row unchanged, and of two executions for the same
`Scheduled` auction (serialized by the store) exactly the first proceeds
past the claim. -/
theorem claim_cas_exactly_once (e : Int) (c1 c2 : Nat → Int)
    (s1 s2 : Nat → PlaceBidResult) (st : AuctionStatus) (atts : List BidAttempt) :
    (st ≠ AuctionStatus.SCHEDULED →
      execute_bid e c1 s1 st atts = ⟨st, atts, false, 0, [], false⟩) ∧
    (st = AuctionStatus.SCHEDULED →
      (execute_bid e c1 s1 st atts).claimed = true ∧
      execute_bid e c2 s2 (execute_bid e c1 s1 st atts).status
          (execute_bid e c1 s1 st atts).attempts =
        ⟨(execute_bid e c1 s1 st atts).status, (execute_bid e c1 s1 st atts).attempts,
          false, 0, [], false⟩) := by
  constructor
  · intro h
    exact execute_bid_not_scheduled e c1 s1 st atts h
  · intro h
    obtain ⟨rec, j, hclaimed, _, _, _, _⟩ := execute_bid_shape e c1 s1 st atts h
    exact ⟨hclaimed,
      execute_bid_not_scheduled e c2 s2 _ _
        (execute_bid_result_not_scheduled e c1 s1 st atts h)⟩

/-- Witness for C1 at concrete inputs: a non-`Scheduled` row is untouched,
and for a `Scheduled` row the first run claims and the second is a no-op. -/
theorem claim_cas_exactly_once_witness :
    (AuctionStatus.EXECUTING ≠ AuctionStatus.SCHEDULED ∧
      execute_bid 10000 (fun _ => 0) (fun _ => PlaceBidResult.ok)
          AuctionStatus.EXECUTING [] =
        ⟨AuctionStatus.EXECUTING, [], false, 0, [], false⟩) ∧
    ((execute_bid 10000 (fun _ => 0) (fun _ => PlaceBidResult.ok)
          AuctionStatus.SCHEDULED []).claimed = true ∧
      execute_bid 10000 (fun _ => 0) (fun _ => PlaceBidResult.ok)
          (execute_bid 10000 (fun _ => 0) (fun _ => PlaceBidResult.ok)
            AuctionStatus.SCHEDULED []).status
          (execute_bid 10000 (fun _ => 0) (fun _ => PlaceBidResult.ok)
            AuctionStatus.SCHEDULED []).attempts =
        ⟨(execute_bid 10000 (fun _ => 0) (fun _ => PlaceBidResult.ok)
            AuctionStatus.SCHEDULED []).status,
          (execute_bid 10000 (fun _ => 0) (fun _ => PlaceBidResult.ok)
            AuctionStatus.SCHEDULED []).attempts, false, 0, [], false⟩) :=
  ⟨⟨by decide,
    (claim_cas_exactly_once 10000 (fun _ => 0) (fun _ => 0) (fun _ => PlaceBidResult.ok)
      (fun _ => PlaceBidResult.ok) AuctionStatus.EXECUTING []).1 (by decide)⟩,
    (claim_cas_exactly_once 10000 (fun _ => 0) (fun _ => 0) (fun _ => PlaceBidResult.ok)
      (fun _ => PlaceBidResult.ok) AuctionStatus.SCHEDULED []).2 rfl⟩

/-- The attempt/status invariant: pre-terminal rows carry no attempt row,
a `BidPlaced` row carries exactly one success attempt, a `Failed` row
exactly one failure attempt. -/
def AttemptInv (a : SysAuction) : Prop :=
  ((a.status = AuctionStatus.SCHEDULED ∨ a.status = AuctionStatus.EXECUTING ∨
      a.status = AuctionStatus.CANCELLED ∨ a.status = AuctionStatus.SKIPPED) →
    a.attempts = []) ∧
  (a.status = AuctionStatus.BID_PLACED →
    ∃ t, a.attempts = [⟨t, BidResult.SUCCESS, none⟩]) ∧
  (a.status = AuctionStatus.FAILED →
    ∃ rec, a.attempts = [rec] ∧ rec.result = BidResult.FAILED)

/-- `AttemptInv` only looks at `status` and `attempts`. -/
lemma attemptInv_of_eq {a b : SysAuction} (h1 : b.status = a.status)
    (h2 : b.attempts = a.attempts) (h : AttemptInv a) : AttemptInv b := by
  unfold AttemptInv at *
  rw [h1, h2]
  exact h

/-- The pre-bid guard never touches the attempt rows or the deadline, and
either keeps the status or skips the auction. -/
lemma pre_bid_price_check_shape (now : Int) (f : Option Int) (a : SysAuction) :
    (pre_bid_price_check now f a).attempts = a.attempts ∧
    (pre_bid_price_check now f a).auction_end_time_utc = a.auction_end_time_utc ∧
    ((pre_bid_price_check now f a).status = a.status ∨
      (pre_bid_price_check now f a).status = AuctionStatus.SKIPPED) := by
  unfold pre_bid_price_check
  cases f with
  | none => exact ⟨rfl, rfl, Or.inl rfl⟩
  | some p =>
    dsimp only
    split
    · exact ⟨rfl, rfl, Or.inr rfl⟩
    · exact ⟨rfl, rfl, Or.inl rfl⟩

/-- A scheduler tick on one auction preserves the attempt/status
invariant. -/
lemma process_auction_inv (now : Int) (c : Nat → Int) (s : Nat → PlaceBidResult)
    (f : Option Int) (a : SysAuction) (h : AttemptInv a) :
    AttemptInv (process_auction now c s f a) := by
  obtain ⟨h1, h2, h3⟩ := h
  unfold process_auction
  split
  · exact ⟨h1, h2, h3⟩
  · split
    · -- Executing
      rename_i hterm hexe
      have ha : a.attempts = [] := h1 (Or.inr (Or.inl hexe))
      split
      · -- ended while Executing: Failed with a crash-recovery attempt
        refine ⟨fun hc => ?_, fun hc => ?_, fun _ => ?_⟩
        · rcases hc with hc | hc | hc | hc <;> simp at hc
        · simp at hc
        · refine ⟨⟨now, BidResult.FAILED,
            some "Worker crashed during execution, auction ended"⟩, ?_, rfl⟩
          simp [ha]
      · exact ⟨h1, h2, h3⟩
    · split
      · -- Scheduled and already ended: Failed with a cleanup attempt
        rename_i hterm hexe hsch
        have ha : a.attempts = [] := h1 (Or.inl hsch.1)
        refine ⟨fun hc => ?_, fun hc => ?_, fun _ => ?_⟩
        · rcases hc with hc | hc | hc | hc <;> simp at hc
        · simp at hc
        · refine ⟨⟨now, BidResult.FAILED,
            some "Auction ended before worker could process it"⟩, ?_, rfl⟩
          simp [ha]
      · split
        · -- Scheduled, inside the tick's timing logic
          rename_i hterm hexe hnotend hsch
          have ha : a.attempts = [] := h1 (Or.inl hsch)
          obtain ⟨hpa, hpe, hps⟩ := pre_bid_price_check_shape now f a
          dsimp only
          set a1 : SysAuction :=
            (if 0 ≤ a.auction_end_time_utc - 60000 - now ∧
                a.auction_end_time_utc - 60000 - now < 1000 then
              pre_bid_price_check now f a
            else a) with ha1
          have ha1a : a1.attempts = [] := by
            rw [ha1]; split
            · rw [hpa, ha]
            · exact ha
          have ha1s : a1.status = AuctionStatus.SCHEDULED ∨
              a1.status = AuctionStatus.SKIPPED := by
            rw [ha1]; split
            · rcases hps with hp | hp
              · exact Or.inl (hp.trans hsch)
              · exact Or.inr hp
            · exact Or.inl hsch
          split
          · -- the guard proceeded (row still Scheduled)
            rename_i hs1
            split
            · -- bid window: run the executor
              obtain ⟨rec, j, hcl, hatt, hstat, hcalls, hsl⟩ :=
                execute_bid_shape a1.auction_end_time_utc c s a1.status a1.attempts hs1
              refine ⟨fun hc => ?_, fun hc => ?_, fun hc => ?_⟩
              · rcases hstat with ⟨hst, _⟩ | ⟨hst, _⟩ <;>
                  simp only [applyExec] at hc <;>
                  rw [hst] at hc <;>
                  rcases hc with hc | hc | hc | hc <;> simp at hc
              · simp only [applyExec] at hc ⊢
                rcases hstat with ⟨hst, hres, herr⟩ | ⟨hst, _⟩
                · refine ⟨rec.attempt_time_utc, ?_⟩
                  rw [hatt, ha1a]
                  cases rec with
                  | mk t res err =>
                    simp only at hres herr
                    rw [hres, herr]
                    rfl
                · rw [hst] at hc; simp at hc
              · simp only [applyExec] at hc ⊢
                rcases hstat with ⟨hst, _, _⟩ | ⟨hst, hres⟩
                · rw [hst] at hc; simp at hc
                · refine ⟨rec, ?_, hres⟩
                  rw [hatt, ha1a]
                  rfl
            · -- not in the bid window: return the guarded row
              refine ⟨fun _ => ha1a, fun hc => ?_, fun hc => ?_⟩
              · rw [hs1] at hc; simp at hc
              · rw [hs1] at hc; simp at hc
          · -- the guard skipped the auction (or row no longer Scheduled)
            rename_i hs1
            refine ⟨fun _ => ha1a, fun hc => ?_, fun hc => ?_⟩
            · rcases ha1s with hss | hss
              · exact absurd hss hs1
              · rw [hss] at hc; simp at hc
            · rcases ha1s with hss | hss
              · exact absurd hss hs1
              · rw [hss] at hc; simp at hc
        · exact ⟨h1, h2, h3⟩

/-- The bare claim CAS preserves the attempt/status invariant. -/
lemma claimCAS_inv (a : SysAuction) (h : AttemptInv a) : AttemptInv (claimCAS a) := by
  obtain ⟨h1, h2, h3⟩ := h
  unfold claimCAS
  split
  · rename_i hsch
    have ha : a.attempts = [] := h1 (Or.inl hsch)
    refine ⟨fun _ => ha, fun hc => ?_, fun hc => ?_⟩ <;> simp at hc
  · exact ⟨h1, h2, h3⟩

/-- A user cancel preserves the attempt/status invariant. -/
lemma remove_sniper_inv (a : SysAuction) (h : AttemptInv a) :
    AttemptInv (remove_sniper a).1 := by
  obtain ⟨h1, h2, h3⟩ := h
  unfold remove_sniper
  split
  · rename_i hsch
    have ha : a.attempts = [] := h1 (Or.inl hsch)
    refine ⟨fun _ => ha, fun hc => ?_, fun hc => ?_⟩ <;> simp at hc
  · exact ⟨h1, h2, h3⟩

/-- The first reconciliation pass touches neither `status` nor the attempt
rows. -/
lemma check_outcomes_pass1_frame (now : Int) (env : OutcomeReply) (a : SysAuction) :
    (check_outcomes_pass1 now env a).status = a.status ∧
    (check_outcomes_pass1 now env a).attempts = a.attempts := by
  unfold check_outcomes_pass1
  split
  · split
    · exact ⟨rfl, rfl⟩
    · split
      · exact ⟨rfl, rfl⟩
      · exact ⟨rfl, rfl⟩
  · exact ⟨rfl, rfl⟩

/-- The opportunistic final-price pass touches neither `status`, the
attempt rows, nor `outcome`. -/
lemma check_outcomes_pass2_frame (now : Int) (tp : Option Int) (a : SysAuction) :
    (check_outcomes_pass2 now tp a).status = a.status ∧
    (check_outcomes_pass2 now tp a).attempts = a.attempts ∧
    (check_outcomes_pass2 now tp a).outcome = a.outcome := by
  unfold check_outcomes_pass2
  split
  · split
    · exact ⟨rfl, rfl, rfl⟩
    · split
      · split
        · exact ⟨rfl, rfl, rfl⟩
        · exact ⟨rfl, rfl, rfl⟩
      · exact ⟨rfl, rfl, rfl⟩
  · exact ⟨rfl, rfl, rfl⟩

/-- The whole reconciliation tick touches neither `status` nor the attempt
rows. -/
lemma check_auction_outcomes_frame (now : Int) (env : OutcomeReply) (tp : Option Int)
    (a : SysAuction) :
    (check_auction_outcomes now env tp a).status = a.status ∧
    (check_auction_outcomes now env tp a).attempts = a.attempts := by
  unfold check_auction_outcomes
  obtain ⟨p2s, p2a, _⟩ := check_outcomes_pass2_frame now tp (check_outcomes_pass1 now env a)
  obtain ⟨p1s, p1a⟩ := check_outcomes_pass1_frame now env a
  exact ⟨p2s.trans p1s, p2a.trans p1a⟩

/-- A read-path price refresh touches neither `status` nor the attempt
rows. -/
lemma refresh_auction_price_frame (now : Int) (d : Option Details) (a : SysAuction) :
    (refresh_auction_price now d a).status = a.status ∧
    (refresh_auction_price now d a).attempts = a.attempts := by
  unfold refresh_auction_price
  cases d with
  | none => exact ⟨rfl, rfl⟩
  | some d => exact ⟨rfl, rfl⟩

/-- Every durable transition preserves the attempt/status invariant. -/
lemma sysStep_inv {a b : SysAuction} (h : AttemptInv a) (hs : SysStep a b) :
    AttemptInv b := by
  cases hs with
  | tick now c s f a => exact process_auction_inv now c s f a h
  | claim a => exact claimCAS_inv a h
  | cancel a => exact remove_sniper_inv a h
  | outcomes now env tp a =>
    obtain ⟨hst, hat⟩ := check_auction_outcomes_frame now env tp a
    exact attemptInv_of_eq hst hat h
  | refresh now d a =>
    obtain ⟨hst, hat⟩ := refresh_auction_price_frame now d a
    exact attemptInv_of_eq hst hat h

/-- The attempt/status invariant holds in every reachable auction row. -/
lemma reachable_attemptInv {a : SysAuction} (h : ReachableAuction a) : AttemptInv a := by
  induction h with
  | init now listing maxBid d =>
    refine ⟨fun _ => rfl, fun hc => ?_, fun hc => ?_⟩ <;> simp [newAuction] at hc
  | step _ hs ih => exact sysStep_inv ih hs

/-- C2: in every reachable state an auction has at most one BidAttempt,
and `status = BidPlaced` holds iff exactly one success attempt exists. -/
theorem bid_placed_iff_unique_success (a : SysAuction) (h : ReachableAuction a) :
    a.attempts.length ≤ 1 ∧
    (a.status = AuctionStatus.BID_PLACED ↔
      a.attempts.countP (fun r => decide (r.result = BidResult.SUCCESS)) = 1) := by
  obtain ⟨h1, h2, h3⟩ := reachable_attemptInv h
  cases hst : a.status with
  | SCHEDULED =>
    have ha : a.attempts = [] := h1 (Or.inl hst)
    rw [ha]
    simp
  | EXECUTING =>
    have ha : a.attempts = [] := h1 (Or.inr (Or.inl hst))
    rw [ha]
    simp
  | CANCELLED =>
    have ha : a.attempts = [] := h1 (Or.inr (Or.inr (Or.inl hst)))
    rw [ha]
    simp
  | SKIPPED =>
    have ha : a.attempts = [] := h1 (Or.inr (Or.inr (Or.inr hst)))
    rw [ha]
    simp
  | BID_PLACED =>
    obtain ⟨t, ha⟩ := h2 hst
    rw [ha]
    simp
  | FAILED =>
    obtain ⟨rec, ha, hres⟩ := h3 hst
    rw [ha]
    simp [List.countP_cons, hres]

/-- Witness for C2 at a freshly created auction. -/
theorem bid_placed_iff_unique_success_witness :
    (newAuction 0 "L" 100 ⟨"T", 50, "USD", 10000⟩).attempts.length ≤ 1 ∧
    ((newAuction 0 "L" 100 ⟨"T", 50, "USD", 10000⟩).status = AuctionStatus.BID_PLACED ↔
      (newAuction 0 "L" 100 ⟨"T", 50, "USD", 10000⟩).attempts.countP
        (fun r => decide (r.result = BidResult.SUCCESS)) = 1) :=
  bid_placed_iff_unique_success _ (ReachableAuction.init 0 "L" 100 ⟨"T", 50, "USD", 10000⟩)

/-- C3: no operation of the system changes the status of an auction whose
status is in {BidPlaced, Failed, Cancelled, Skipped}. -/
theorem terminal_status_frozen (a b : SysAuction)
    (h : a.status = AuctionStatus.BID_PLACED ∨ a.status = AuctionStatus.FAILED ∨
      a.status = AuctionStatus.CANCELLED ∨ a.status = AuctionStatus.SKIPPED)
    (hs : SysStep a b) : b.status = a.status := by
  have hnsch : ¬ a.status = AuctionStatus.SCHEDULED := by
    rcases h with h | h | h | h <;> rw [h] <;> simp
  cases hs with
  | tick now c s f a =>
    unfold process_auction
    rw [if_pos (by tauto)]
  | claim a =>
    unfold claimCAS
    rw [if_neg hnsch]
  | cancel a =>
    unfold remove_sniper
    rw [if_neg hnsch]
  | outcomes now env tp a => exact (check_auction_outcomes_frame now env tp a).1
  | refresh now d a => exact (refresh_auction_price_frame now d a).1

/-- Witness for C3: a step on a concrete Cancelled auction leaves its
status unchanged. -/
theorem terminal_status_frozen_witness :
    (claimCAS { newAuction 0 "L" 100 ⟨"T", 50, "USD", 10000⟩ with
        status := AuctionStatus.CANCELLED }).status =
      ({ newAuction 0 "L" 100 ⟨"T", 50, "USD", 10000⟩ with
        status := AuctionStatus.CANCELLED } : SysAuction).status :=
  terminal_status_frozen _ _ (Or.inr (Or.inr (Or.inl rfl)))
    (SysStep.claim { newAuction 0 "L" 100 ⟨"T", 50, "USD", 10000⟩ with
      status := AuctionStatus.CANCELLED })

/-- C4 counterexample: with the very first window check already past
`end − 300 ms`, the loop stops and records the failure message
"Ran out of time window for bid placement" — not the claimed
"Ran out of time window". -/
theorem time_window_message_counterexample :
    ((800 : Int) ≥ 1000 - 300) ∧
    (execute_bid 1000 (fun _ => 800) (fun _ => PlaceBidResult.ok)
      AuctionStatus.SCHEDULED []).status = AuctionStatus.FAILED ∧
    (execute_bid 1000 (fun _ => 800) (fun _ => PlaceBidResult.ok)
      AuctionStatus.SCHEDULED []).bidCalls = 0 ∧
    (execute_bid 1000 (fun _ => 800) (fun _ => PlaceBidResult.ok)
      AuctionStatus.SCHEDULED []).attempts =
      [⟨800, BidResult.FAILED, some "Ran out of time window for bid placement"⟩] ∧
    (some "Ran out of time window for bid placement" : Option String) ≠
      some "Ran out of time window" := by decide

/-- C4 (amended): at most 4 `place_bid` calls with sleeps a prefix of
[100, 250, 500] ms; a window check at or past `end − 300 ms` stops the loop
with one failure attempt "Ran out of time window for bid placement"; four
retryable outcomes exhaust the loop with one failure attempt
"All retry attempts exhausted". -/
theorem retry_loop_behavior (e : Int) (c : Nat → Int) (s : Nat → PlaceBidResult) :
    (∀ st atts, (execute_bid e c s st atts).bidCalls ≤ 4 ∧
      ∃ j, (execute_bid e c s st atts).sleeps = ([100, 250, 500] : List Int).take j) ∧
    (∀ fuel attempt ci calls sleeps atts, fuel ≠ 0 → c ci ≥ e - 300 →
      retryLoop e c s fuel attempt ci calls sleeps atts =
        ⟨AuctionStatus.FAILED,
          atts ++ [⟨c (ci + 1), BidResult.FAILED,
            some "Ran out of time window for bid placement"⟩],
          true, calls, sleeps, false⟩) ∧
    ((∀ i, c i < e - 300) → (∀ j, j < 4 → retryableAt j (s j)) → ∀ atts,
      execute_bid e c s AuctionStatus.SCHEDULED atts =
        ⟨AuctionStatus.FAILED,
          atts ++ [⟨c 5, BidResult.FAILED, some "All retry attempts exhausted"⟩],
          true, 4, [100, 250, 500], false⟩) := by
  refine ⟨?_, ?_, ?_⟩
  · intro st atts
    by_cases h : st = AuctionStatus.SCHEDULED
    · obtain ⟨rec, j, _, _, _, h4, h5⟩ := execute_bid_shape e c s st atts h
      exact ⟨h4, j, h5⟩
    · rw [execute_bid_not_scheduled e c s st atts h]
      exact ⟨by norm_num, 0, rfl⟩
  · intro fuel attempt ci calls sleeps atts hfuel hwin
    exact retryLoop_window e c s fuel attempt ci calls sleeps atts hfuel hwin
  · intro hc hs atts
    unfold execute_bid
    rw [if_pos rfl, if_neg (by have := hc 0; omega)]
    exact retryLoop_exhausted e c s 1 atts hc hs

/-- Witness for C4 (amended) at concrete inputs: a window stop and a full
exhaustion run. -/
theorem retry_loop_behavior_witness :
    (retryLoop 1000 (fun _ => 800) (fun _ => PlaceBidResult.ok) 4 0 1 0 [] [] =
      ⟨AuctionStatus.FAILED,
        [⟨800, BidResult.FAILED, some "Ran out of time window for bid placement"⟩],
        true, 0, [], false⟩) ∧
    (execute_bid 100000 (fun _ => 0) (fun _ => PlaceBidResult.timeout)
        AuctionStatus.SCHEDULED [] =
      ⟨AuctionStatus.FAILED,
        [⟨0, BidResult.FAILED, some "All retry attempts exhausted"⟩],
        true, 4, [100, 250, 500], false⟩) :=
  ⟨(retry_loop_behavior 1000 (fun _ => 800) (fun _ => PlaceBidResult.ok)).2.1
      4 0 1 0 [] [] (by decide) (by decide),
    (retry_loop_behavior 100000 (fun _ => 0) (fun _ => PlaceBidResult.timeout)).2.2
      (fun i => by decide) (fun j hj => trivial) []⟩

/-- C5 counterexample: a `RequestException` with HTTP status 400 — not a
timeout, not a 429, not a 5xx — whose message merely contains the character
"5" is retried: `place_bid` is called 4 times with all three sleeps,
instead of an immediate terminal failure. -/
theorem textual_retry_heuristic_counterexample :
    (execute_bid 100000 (fun _ => 0)
      (fun _ => PlaceBidResult.reqExc "Bid amount 5.00 too low" (some 400))
      AuctionStatus.SCHEDULED []).bidCalls = 4 ∧
    (execute_bid 100000 (fun _ => 0)
      (fun _ => PlaceBidResult.reqExc "Bid amount 5.00 too low" (some 400))
      AuctionStatus.SCHEDULED []).sleeps = [100, 250, 500] ∧
    ¬ (500 ≤ (400 : Nat) ∧ (400 : Nat) < 600) ∧ (400 : Nat) ≠ 429 := by decide

/-- C5 (amended): an execution error that is not a timeout and that the
code's textual heuristic deems non-retryable — its message contains no
"429" (with attempts remaining) and neither "5" nor "server error"
case-insensitively — ends the loop at once: one failure BidAttempt with the
error's message and status Failed, regardless of attempts remaining; any
exception that is not a `RequestException` does so unconditionally. -/
theorem non_retryable_immediate_failure (e : Int) (c : Nat → Int)
    (s : Nat → PlaceBidResult) :
    (∀ fuel attempt ci calls sleeps atts msg hstat, fuel ≠ 0 → ¬ c ci ≥ e - 300 →
      s calls = PlaceBidResult.reqExc msg hstat → retryableMsg attempt msg = false →
      retryLoop e c s fuel attempt ci calls sleeps atts =
        ⟨AuctionStatus.FAILED, atts ++ [⟨c (ci + 1), BidResult.FAILED, some msg⟩],
          true, calls + 1, sleeps, false⟩) ∧
    (∀ fuel attempt ci calls sleeps atts msg, fuel ≠ 0 → ¬ c ci ≥ e - 300 →
      s calls = PlaceBidResult.otherExc msg →
      retryLoop e c s fuel attempt ci calls sleeps atts =
        ⟨AuctionStatus.FAILED, atts ++ [⟨c (ci + 1), BidResult.FAILED, some msg⟩],
          true, calls + 1, sleeps, false⟩) := by
  constructor
  · intro fuel attempt ci calls sleeps atts msg hstat hfuel hc hsc hnr
    exact retryLoop_nonretry_req e c s fuel attempt ci calls sleeps atts msg hstat
      hfuel hc hsc hnr
  · intro fuel attempt ci calls sleeps atts msg hfuel hc hsc
    exact retryLoop_otherexc e c s fuel attempt ci calls sleeps atts msg hfuel hc hsc

/-- Witness for C5 (amended) at concrete inputs: a non-retryable
`RequestException` and an unexpected exception each fail at once. -/
theorem non_retryable_immediate_failure_witness :
    (retryLoop 100000 (fun _ => 0)
        (fun _ => PlaceBidResult.reqExc "item not found" (some 404)) 4 0 1 0 [] [] =
      ⟨AuctionStatus.FAILED, [⟨0, BidResult.FAILED, some "item not found"⟩],
        true, 1, [], false⟩) ∧
    (retryLoop 100000 (fun _ => 0)
        (fun _ => PlaceBidResult.otherExc "boom") 4 0 1 0 [] [] =
      ⟨AuctionStatus.FAILED, [⟨0, BidResult.FAILED, some "boom"⟩],
        true, 1, [], false⟩) :=
  ⟨(non_retryable_immediate_failure 100000 (fun _ => 0)
      (fun _ => PlaceBidResult.reqExc "item not found" (some 404))).1
      4 0 1 0 [] [] "item not found" (some 404) (by decide) (by decide) rfl (by decide),
    (non_retryable_immediate_failure 100000 (fun _ => 0)
      (fun _ => PlaceBidResult.otherExc "boom")).2
      4 0 1 0 [] [] "boom" (by decide) (by decide) rfl⟩

/-- C6 counterexample: the single `add_sniper` path accepts a listing whose
fetched end time lies in the past and whose current price is at or above
the requested max bid — a row is created, with status `Scheduled`. -/
theorem add_sniper_no_validation_counterexample :
    ((⟨"T", 100, "USD", -1000⟩ : Details).auction_end_time_utc ≤ 0) ∧
    ((50 : Int) ≤ (⟨"T", 100, "USD", -1000⟩ : Details).current_price) ∧
    add_sniper 0 [] "L" 50 (FetchResult.ok ⟨"T", 100, "USD", -1000⟩) =
      Except.ok [newAuction 0 "L" 50 ⟨"T", 100, "USD", -1000⟩] ∧
    (newAuction 0 "L" 50 ⟨"T", 100, "USD", -1000⟩).status = AuctionStatus.SCHEDULED :=
  ⟨by decide, by decide, rfl, rfl⟩

/-- C6 (amended): only the bulk path validates the fetched details — an
ended listing or a max bid not above the current price is rejected per
item with no row created; the single add path performs no such validation
and persists whenever no duplicate exists and the fetch succeeds; every
persisted row starts `Scheduled`. -/
theorem add_validation_behavior (now : Int) (db : List SysAuction) (listing : String)
    (maxBid : Int) (d : Details) :
    (db.any (fun a => a.listing_number = listing) = false →
      d.auction_end_time_utc ≤ now →
      bulk_add_item now db listing maxBid (FetchResult.ok d) =
        (db, some "Auction has ended")) ∧
    (db.any (fun a => a.listing_number = listing) = false →
      now < d.auction_end_time_utc → maxBid ≤ d.current_price →
      bulk_add_item now db listing maxBid (FetchResult.ok d) =
        (db, some "Max bid must be greater than current price")) ∧
    (db.any (fun a => a.listing_number = listing) = false →
      now < d.auction_end_time_utc → d.current_price < maxBid →
      bulk_add_item now db listing maxBid (FetchResult.ok d) =
        (db ++ [newAuction now listing maxBid d], none)) ∧
    (db.any (fun a => a.listing_number = listing) = false →
      add_sniper now db listing maxBid (FetchResult.ok d) =
        Except.ok (db ++ [newAuction now listing maxBid d])) ∧
    (newAuction now listing maxBid d).status = AuctionStatus.SCHEDULED := by
  refine ⟨?_, ?_, ?_, ?_, rfl⟩
  · intro hdup hend
    unfold bulk_add_item
    rw [if_neg (by simp [hdup])]
    dsimp only
    rw [if_pos hend]
  · intro hdup hend hbid
    unfold bulk_add_item
    rw [if_neg (by simp [hdup])]
    dsimp only
    rw [if_neg (not_le.mpr hend), if_pos hbid]
  · intro hdup hend hbid
    unfold bulk_add_item
    rw [if_neg (by simp [hdup])]
    dsimp only
    rw [if_neg (not_le.mpr hend), if_neg (not_le.mpr hbid)]
  · intro hdup
    unfold add_sniper
    rw [if_neg (by simp [hdup])]

/-- Witness for C6 (amended) at concrete inputs: an ended listing and a
too-low bid are rejected by the bulk path, the single path persists. -/
theorem add_validation_behavior_witness :
    (bulk_add_item 0 [] "L" 50 (FetchResult.ok ⟨"T", 100, "USD", -1000⟩) =
      ([], some "Auction has ended")) ∧
    (bulk_add_item 0 [] "L" 50 (FetchResult.ok ⟨"T", 100, "USD", 9000⟩) =
      ([], some "Max bid must be greater than current price")) ∧
    (bulk_add_item 0 [] "L" 200 (FetchResult.ok ⟨"T", 100, "USD", 9000⟩) =
      ([] ++ [newAuction 0 "L" 200 ⟨"T", 100, "USD", 9000⟩], none)) ∧
    (add_sniper 0 [] "L" 50 (FetchResult.ok ⟨"T", 100, "USD", -1000⟩) =
      Except.ok ([] ++ [newAuction 0 "L" 50 ⟨"T", 100, "USD", -1000⟩])) :=
  ⟨(add_validation_behavior 0 [] "L" 50 ⟨"T", 100, "USD", -1000⟩).1 rfl (by decide),
    (add_validation_behavior 0 [] "L" 50 ⟨"T", 100, "USD", 9000⟩).2.1 rfl
      (by decide) (by decide),
    (add_validation_behavior 0 [] "L" 200 ⟨"T", 100, "USD", 9000⟩).2.2.1 rfl
      (by decide) (by decide),
    (add_validation_behavior 0 [] "L" 50 ⟨"T", 100, "USD", -1000⟩).2.2.2.1 rfl⟩

/-- C7 counterexample: with only a terminated (`Cancelled`) auction for the
listing in the table, a new add for the same listing is still rejected with
"Auction already exists". -/
theorem duplicate_check_ignores_status_counterexample :
    ({ newAuction 0 "L" 100 ⟨"T", 50, "USD", 10000⟩ with
        status := AuctionStatus.CANCELLED } : SysAuction).status =
      AuctionStatus.CANCELLED ∧
    add_sniper 20000
      [{ newAuction 0 "L" 100 ⟨"T", 50, "USD", 10000⟩ with
        status := AuctionStatus.CANCELLED }] "L" 100
      (FetchResult.ok ⟨"T", 50, "USD", 30000⟩) =
      Except.error "Auction already exists" :=
  ⟨rfl, rfl⟩

/-- C7 (amended): `add_sniper` rejects with already-exists exactly when any
row with the same listing number exists, regardless of its status; with no
such row and a successful fetch it appends a new row. -/
theorem already_exists_iff_any_row (now : Int) (db : List SysAuction) (listing : String)
    (maxBid : Int) (fetch : FetchResult) :
    (db.any (fun a => a.listing_number = listing) = true →
      add_sniper now db listing maxBid fetch = Except.error "Auction already exists") ∧
    (db.any (fun a => a.listing_number = listing) = false →
      ∀ d, fetch = FetchResult.ok d →
        add_sniper now db listing maxBid fetch =
          Except.ok (db ++ [newAuction now listing maxBid d])) := by
  constructor
  · intro hdup
    unfold add_sniper
    rw [if_pos hdup]
  · intro hdup d hf
    unfold add_sniper
    rw [if_neg (by simp [hdup]), hf]

/-- Witness for C7 (amended) at concrete inputs. -/
theorem already_exists_iff_any_row_witness :
    (add_sniper 0 [newAuction 0 "L" 100 ⟨"T", 50, "USD", 10000⟩] "L" 100
        (FetchResult.ok ⟨"T", 50, "USD", 10000⟩) =
      Except.error "Auction already exists") ∧
    (add_sniper 0 [] "L" 100 (FetchResult.ok ⟨"T", 50, "USD", 10000⟩) =
      Except.ok ([] ++ [newAuction 0 "L" 100 ⟨"T", 50, "USD", 10000⟩])) :=
  ⟨(already_exists_iff_any_row 0 [newAuction 0 "L" 100 ⟨"T", 50, "USD", 10000⟩]
      "L" 100 (FetchResult.ok ⟨"T", 50, "USD", 10000⟩)).1 (by decide),
    (already_exists_iff_any_row 0 [] "L" 100
      (FetchResult.ok ⟨"T", 50, "USD", 10000⟩)).2 rfl ⟨"T", 50, "USD", 10000⟩ rfl⟩

/-- The spec's terminal-for-refresh set:
{Cancelled, Failed, Skipped} ∪ ({BidPlaced} iff `now ≥ end_time_utc`). -/
def specTerminalForRefresh (now : Int) (a : SysAuction) : Bool :=
  decide (a.status = AuctionStatus.CANCELLED) ||
  decide (a.status = AuctionStatus.FAILED) ||
  decide (a.status = AuctionStatus.SKIPPED) ||
  (decide (a.status = AuctionStatus.BID_PLACED) &&
    decide (now ≥ a.auction_end_time_utc))

/-- Modelled from the spec: refresh is required iff the timestamp is null
or stale (> 60 s) and the status is not terminal-for-refresh. -/
def specShouldRefresh (now : Int) (a : SysAuction) : Bool :=
  (match a.last_price_refresh_utc with
    | none => true
    | some t => decide (now - t > 60000)) &&
  !(specTerminalForRefresh now a)

/-- Modelled from the spec's law as literally stated: "Refresh is a no-op
iff `now − last_refresh_utc ≤ 60 s` AND status is refreshable". -/
def specNoOpGloss (now : Int) (a : SysAuction) : Bool :=
  (match a.last_price_refresh_utc with
    | none => false
    | some t => decide (now - t ≤ 60000)) &&
  !(specTerminalForRefresh now a)

/-- The corrected no-op condition: terminal-for-refresh status, or a
non-null timestamp at most 60 s old. -/
def specNoOpCorrect (now : Int) (a : SysAuction) : Bool :=
  specTerminalForRefresh now a ||
  (match a.last_price_refresh_utc with
    | none => false
    | some t => decide (now - t ≤ 60000))

/-- C8 counterexample: a `Cancelled` auction whose price was last refreshed
10 s ago is a no-op for the code, yet the claim's "no-op iff ≤ 60 s and
refreshable" gloss classifies it as requiring a refresh. -/
theorem refresh_noop_gloss_counterexample :
    should_refresh_price 0
      { newAuction (-10000) "L" 100 ⟨"T", 50, "USD", 900000⟩ with
        status := AuctionStatus.CANCELLED } = false ∧
    specNoOpGloss 0
      { newAuction (-10000) "L" 100 ⟨"T", 50, "USD", 900000⟩ with
        status := AuctionStatus.CANCELLED } = false ∧
    ¬ ((should_refresh_price 0
        { newAuction (-10000) "L" 100 ⟨"T", 50, "USD", 900000⟩ with
          status := AuctionStatus.CANCELLED } = false) ↔
      (specNoOpGloss 0
        { newAuction (-10000) "L" 100 ⟨"T", 50, "USD", 900000⟩ with
          status := AuctionStatus.CANCELLED } = true)) := by decide

/-- C8 (amended): the code refreshes exactly per the spec's main rule —
null-or-stale timestamp and a non-terminal-for-refresh status — and is a
no-op exactly when the status is terminal-for-refresh or the timestamp is
non-null and at most 60 s old. -/
theorem should_refresh_price_correct (now : Int) (a : SysAuction) :
    should_refresh_price now a = specShouldRefresh now a ∧
    ((should_refresh_price now a = false) ↔ specNoOpCorrect now a = true) := by
  have hmain : should_refresh_price now a = specShouldRefresh now a := by
    unfold should_refresh_price specShouldRefresh specTerminalForRefresh
    cases hst : a.status <;>
      by_cases hend : now ≥ a.auction_end_time_utc <;>
        cases hlr : a.last_price_refresh_utc <;>
          simp [hst, hend, hlr]
  refine ⟨hmain, ?_⟩
  rw [hmain]
  unfold specShouldRefresh specNoOpCorrect
  cases hlr : a.last_price_refresh_utc <;>
    cases ht : specTerminalForRefresh now a <;>
      simp [hlr, ht]

/-- Modelled from the spec: the reconciler's outcome mapping —
Won for ENDED with high bidder, Lost for ENDED without, Pending
otherwise (including 404 and errors). -/
def specOutcomeOf : OutcomeReply → AuctionOutcome
  | OutcomeReply.body st hb _ =>
    if st = "ENDED" then (if hb then AuctionOutcome.WON else AuctionOutcome.LOST)
    else AuctionOutcome.PENDING
  | _ => AuctionOutcome.PENDING

/-- C9 counterexample: an auction that ended exactly 30 s ago — not *more*
than 30 s in the past — is reconciled to `Won`. -/
theorem outcome_delay_boundary_counterexample :
    (check_outcomes_pass1 0 (OutcomeReply.body "ENDED" true (some 500))
      { newAuction (-40000) "L" 100 ⟨"T", 50, "USD", -30000⟩ with
        status := AuctionStatus.BID_PLACED }).outcome = AuctionOutcome.WON ∧
    ¬ ((0 : Int) - ({ newAuction (-40000) "L" 100 ⟨"T", 50, "USD", -30000⟩ with
        status := AuctionStatus.BID_PLACED } : SysAuction).auction_end_time_utc >
      30000) := by decide

/-- C9 (amended): the reconciler never changes `status`; it changes
`outcome` only for rows with `status = BidPlaced`, `outcome = Pending` and
an end time at least 30 s in the past, for which the new outcome follows
the spec's mapping of the marketplace reply; the opportunistic final-price
pass never alters `outcome`. -/
theorem outcome_reconciler_behavior (now : Int) (env : OutcomeReply) (tp : Option Int)
    (a : SysAuction) :
    ((check_auction_outcomes now env tp a).status = a.status) ∧
    ((check_outcomes_pass1 now env a).outcome ≠ a.outcome →
      a.status = AuctionStatus.BID_PLACED ∧ a.outcome = AuctionOutcome.PENDING ∧
        now - a.auction_end_time_utc ≥ 30000) ∧
    (a.status = AuctionStatus.BID_PLACED → a.outcome = AuctionOutcome.PENDING →
      now - a.auction_end_time_utc ≥ 30000 →
      (check_outcomes_pass1 now env a).outcome = specOutcomeOf env) ∧
    ((check_outcomes_pass2 now tp (check_outcomes_pass1 now env a)).outcome =
      (check_outcomes_pass1 now env a).outcome) := by
  refine ⟨(check_auction_outcomes_frame now env tp a).1, ?_, ?_, ?_⟩
  · intro hc
    unfold check_outcomes_pass1 at hc
    by_cases hguard : a.status = AuctionStatus.BID_PLACED ∧
        a.auction_end_time_utc < now ∧ a.outcome = AuctionOutcome.PENDING
    · rw [if_pos hguard] at hc
      by_cases hsoon : now - a.auction_end_time_utc < 30000
      · rw [if_pos hsoon] at hc
        exact absurd rfl hc
      · exact ⟨hguard.1, hguard.2.2, by omega⟩
    · rw [if_neg hguard] at hc
      exact absurd rfl hc
  · intro h1 h2 h3
    unfold check_outcomes_pass1
    rw [if_pos ⟨h1, by omega, h2⟩, if_neg (by omega)]
    cases env with
    | http404 => simp [get_auction_outcome, specOutcomeOf]
    | exc => simp [get_auction_outcome, specOutcomeOf, h2]
    | body st hb pv =>
      by_cases hE : st = "ENDED"
      · simp [get_auction_outcome, specOutcomeOf, hE]
      · simp [get_auction_outcome, specOutcomeOf, hE]
  · exact (check_outcomes_pass2_frame now tp (check_outcomes_pass1 now env a)).2.2

/-- Witness for C9 (amended) at a concrete reconcilable auction. -/
theorem outcome_reconciler_behavior_witness :
    (({ newAuction (-50000) "L" 100 ⟨"T", 50, "USD", -40000⟩ with
        status := AuctionStatus.BID_PLACED } : SysAuction).status =
          AuctionStatus.BID_PLACED ∧
      ({ newAuction (-50000) "L" 100 ⟨"T", 50, "USD", -40000⟩ with
        status := AuctionStatus.BID_PLACED } : SysAuction).outcome =
        AuctionOutcome.PENDING ∧
      (0 : Int) - ({ newAuction (-50000) "L" 100 ⟨"T", 50, "USD", -40000⟩ with
        status := AuctionStatus.BID_PLACED } : SysAuction).auction_end_time_utc ≥
        30000) ∧
    ((check_outcomes_pass1 0 (OutcomeReply.body "ENDED" true (some 500))
      { newAuction (-50000) "L" 100 ⟨"T", 50, "USD", -40000⟩ with
        status := AuctionStatus.BID_PLACED }).outcome =
      specOutcomeOf (OutcomeReply.body "ENDED" true (some 500))) :=
  ⟨(outcome_reconciler_behavior 0 (OutcomeReply.body "ENDED" true (some 500)) none
      { newAuction (-50000) "L" 100 ⟨"T", 50, "USD", -40000⟩ with
        status := AuctionStatus.BID_PLACED }).2.1 (by decide),
    (outcome_reconciler_behavior 0 (OutcomeReply.body "ENDED" true (some 500)) none
      { newAuction (-50000) "L" 100 ⟨"T", 50, "USD", -40000⟩ with
        status := AuctionStatus.BID_PLACED }).2.2.1 rfl rfl (by decide)⟩

/-- C10: `auth` verifies nothing — for any username/password it issues a
token whose subject is the username and whose expiry is exactly 30 days
after issuance, independently of the password. -/
theorem auth_always_issues_token (now : Int) (username password : String) :
    (authOp now username password).sub = username ∧
    (authOp now username password).exp = now + 30 * 86400000 ∧
    ∀ pw2 : String, authOp now username password = authOp now username pw2 :=
  ⟨rfl, rfl, fun _ => rfl⟩
